import Mathlib

/-!
Shallow embedding of `src/bandolier.py`, a model-acquisition service: an
admission table of pending downloads (a fixed-capacity shared list of
optional alias strings guarded by a lock), a registry reconstructed by
scanning `*.modelcard` sidecar files, and the `download_civitai` pipeline
that validates a catalog entry, streams the artifact to a `.pending`
temporary file and commits it by writing the sidecar and renaming the
temporary file to its final name.

The embedding is sequential: each theorem is about one request's execution
against a fixed environment (catalog response, download outcome), with the
directory and the admission table as explicit state.  Every exception the
Python code can raise is a distinct `Outcome` constructor.
-/

/-- The `Model` dataclass (bandolier.py lines 44-54): the artifact descriptor
stored in a sidecar file and returned by registry lookups. -/
structure Model where
  «alias» : String
  name : String
  service : String
  model_hash : String
  model_id : Int
  version_id : Int
  file_id : Int
  filename : String
  download_url : String
deriving DecidableEq, Repr

/-- Content of a file in the registry directory.  `card m` stands for the
text `json.dumps(asdict(m))` written by `store_model`: a flat JSON object of
string and integer fields, whose dump/parse round trip is lossless, so
parsing it recovers `m` exactly.  `malformedCard` is text on which
`json.loads` (or a subsequent key access) raises.  `bytes` is opaque binary
artifact data. -/
inductive FileContent where
  | bytes : FileContent
  | card : Model → FileContent
  | malformedCard : FileContent
deriving DecidableEq, Repr

/-- A directory: an association list of file name to content, in scan order. -/
abbrev Dir := List (String × FileContent)

/-- Whether a file of this name exists (`os.path` level existence). -/
def fsExists (d : Dir) (n : String) : Bool :=
  d.any (fun e => e.1 == n)

/-- Remove any entry named `n`. -/
def fsRemove (d : Dir) (n : String) : Dir :=
  d.filter (fun e => !(e.1 == n))

/-- Create or overwrite file `n` with content `c` (Python `open(n, "w")` + write). -/
def fsWrite (d : Dir) (n : String) (c : FileContent) : Dir :=
  fsRemove d n ++ [(n, c)]

/-- Content of file `n`, if present. -/
def fsLookup (d : Dir) (n : String) : Option FileContent :=
  (d.find? (fun e => e.1 == n)).map (·.2)

/-- The `os.rename(src, dst)` call: `none` models the `OSError` raised when
`src` does not exist; otherwise `dst` is atomically replaced by `src`. -/
def fsRename (d : Dir) (src dst : String) : Option Dir :=
  match fsLookup d src with
  | none => none
  | some c => some (fsWrite (fsRemove d src) dst c)

/-- The test a file name must pass to be picked up by the registry scan
`glob.glob(f"\x7bMODEL_DIR_PATH\x7d/\x7bMODEL_DIR\x7d/*.modelcard")`
(bandolier.py line 208): the name ends with the given suffix. -/
def strEndsWith (s suf : String) : Bool :=
  decide (suf.data <:+ s.data)

/-- The files matched by the registry scan's glob pattern, in scan order. -/
def model_card_files (d : Dir) : Dir :=
  d.filter (fun e => strEndsWith e.1 ".modelcard")

/-- The registry mapping, a Python dict keyed by alias. -/
abbrev Db := List (String × Model)

/-- Python dict assignment `db[k] = v`: overwrite any existing binding of `k`. -/
def dictInsert (db : Db) (k : String) (v : Model) : Db :=
  db.filter (fun e => !(e.1 == k)) ++ [(k, v)]

/-- Python dict lookup: `db[k]` / `k in db`. -/
def dictLookup (db : Db) (k : String) : Option Model :=
  (db.find? (fun e => e.1 == k)).map (·.2)

/-- Parsing one sidecar file (bandolier.py lines 210-213): `json.loads` of the
file text followed by rebuilding `Model` from the nine fields.  `error`
models the `json.JSONDecodeError` (or `KeyError`) the code does not catch. -/
def parse_model_card : FileContent → Except Unit Model
  | .card m => .ok m
  | _ => .error ()

/-- The scan loop body of `load_models`: parse each sidecar in order and do
`db[model.alias] = model`; a parse exception escapes the whole loop. -/
def load_fold : Dir → Db → Except Unit Db
  | [], db => .ok db
  | e :: es, db =>
    match parse_model_card e.2 with
    | .error _ => .error ()
    | .ok m => load_fold es (dictInsert db m.«alias» m)

/-- The `load_models` registry scan (bandolier.py lines 206-216): glob for
`*.modelcard`, parse each file, build the alias-to-descriptor dict.  There is
no try/except around the parse, so `error` means the exception escaped the
scan. -/
def load_models (d : Dir) : Except Unit Db :=
  load_fold (model_card_files d) []

/-- The `store_model` commit (bandolier.py lines 56-62): write the sidecar
`filename.modelcard`, then rename `filename.pending` to `filename`.  The
`error` branch carries the directory as left when `os.rename` raises: the
sidecar write has already happened. -/
def store_model (m : Model) (d : Dir) : Except Dir Dir :=
  let d1 := fsWrite d (m.filename ++ ".modelcard") (.card m)
  match fsRename d1 (m.filename ++ ".pending") m.filename with
  | none => .error d1
  | some d2 => .ok d2

/-- Outcome of the streamed download in `download_model` (bandolier.py lines
72-80), fixed by the environment: success, a network failure before the
`.pending` file is opened, or a mid-stream failure after it was opened. -/
inductive DlResult where
  | ok : DlResult
  | failBeforeOpen : DlResult
  | failMidStream : DlResult
deriving DecidableEq, Repr

/-- The `download_model` write to disk (bandolier.py lines 72-80): the body
streams chunks into `filename.pending`; once the file has been opened it
exists on disk whether or not the stream later fails. -/
def download_model (m : Model) (r : DlResult) (d : Dir) : Dir :=
  match r with
  | .failBeforeOpen => d
  | .failMidStream => fsWrite d (m.filename ++ ".pending") .bytes
  | .ok => fsWrite d (m.filename ++ ".pending") .bytes

/-- One candidate file of the catalog response.  `primary` is
`f.get("primary") == True`: an absent key compares unequal, hence `false`. -/
structure CatalogFile where
  primary : Bool
  pickleScanResult : String
  virusScanResult : String
  name : String
  id : Int
  sizeKB : Int
  downloadUrl : String
deriving DecidableEq, Repr

/-- The parsed catalog response `model_card` (bandolier.py line 142).  The
nested accesses are flattened: `model_type` is `model_card["model"]["type"]`,
`model_name` is `model_card["model"]["name"]`; `id` is the version id. -/
structure ModelCard where
  model_type : String
  model_name : String
  baseModel : String
  modelId : Int
  id : Int
  files : List CatalogFile
deriving DecidableEq, Repr

/-- Result of `fetch_model_card` plus `json.loads` (bandolier.py lines
141-142): a transport failure, unparsable text, or a parsed catalog entry. -/
inductive FetchResult where
  | netFail : FetchResult
  | badJson : FetchResult
  | ok : ModelCard → FetchResult
deriving DecidableEq, Repr

/-- The environment of one request: what the two network calls and the
notification POST (bandolier.py lines 198-202) will do. -/
structure Env where
  fetch : FetchResult
  dl : DlResult
  notify : Bool
deriving DecidableEq, Repr

/-- Mutable state shared by requests: the registry directory and the
admission table `pending`, a fixed-capacity list of optional aliases. -/
structure St where
  dir : Dir
  pending : List (Option String)
deriving DecidableEq, Repr

/-- Python `list.index(x)` (also on `ShareableList`): index of the first
occurrence; `none` models the `ValueError` raised when `x` is absent. -/
def listIndex {α : Type} [BEq α] : List α → α → Option Nat
  | [], _ => none
  | y :: ys, x => if y == x then some 0 else (listIndex ys x).map (· + 1)

/-- The slot-release block (bandolier.py lines 145-147 and peers):
`idx = pending.index(alias); pending[idx] = None`.  At every call site the
alias was claimed earlier in the same request, so the `ValueError` branch of
`index` (here: leaving the table unchanged) is unreachable. -/
def releaseSlot (p : List (Option String)) (a : String) : List (Option String) :=
  match listIndex p (some a) with
  | some i => p.set i none
  | none => p

/-- The descriptor constructed at bandolier.py line 185:
`Model(alias, name, "civitai", model_hash, model_id, version_id, file_id,
filename, download_url)` from the validated catalog entry and its primary
file. -/
def built_model («alias» model_hash : String) (mc : ModelCard) (pf : CatalogFile) : Model :=
  ⟨«alias», mc.model_name, "civitai", model_hash, mc.modelId, mc.id, pf.id, pf.name, pf.downloadUrl⟩

/-- Terminal outcome of one `download_civitai` request.  Constructors with
`Error` in the name are exceptions the handler does not catch (the caller
sees an unnamed internal failure); the others are the explicit returns and
`HTTPException`s of the code. -/
inductive Outcome where
  | present : Model → Outcome
  | pendingResp : Outcome
  | tooManyPending : Outcome
  | valueError : Outcome
  | loadError : Outcome
  | fetchError : Outcome
  | wrongType : Outcome
  | unsupportedBaseModel : Outcome
  | indexError : Outcome
  | failedPickleScan : Outcome
  | failedVirusScan : Outcome
  | downloadError : Outcome
  | storageError : Outcome
  | notifyError : Outcome
  | committed : Model → Outcome
deriving DecidableEq, Repr

/-- The `download_civitai` request handler (bandolier.py lines 120-204),
step for step: registry check, admission (membership test, `index(None)` —
whose `ValueError` on a full table escapes, making the
`if idx == None` guard at line 136 dead code — and slot write), metadata
fetch, the policy gates in source order, primary-file selection by
`[f for f in files if f.get("primary") == True][0]`, descriptor
construction, streamed download, `store_model` commit, slot release, and
the notification POST. -/
def download_civitai («alias» model_hash : String) (env : Env) (s : St) : Outcome × St :=
  match load_models s.dir with
  | .error _ => (.loadError, s)
  | .ok db =>
    match dictLookup db «alias» with
    | some m => (.present m, s)
    | none =>
      if s.pending.contains (some «alias») then (.pendingResp, s)
      else
        match listIndex s.pending none with
        | none => (.valueError, s)
        | some idx =>
          let p1 := s.pending.set idx (some «alias»)
          match env.fetch with
          | .netFail => (.fetchError, ⟨s.dir, p1⟩)
          | .badJson => (.fetchError, ⟨s.dir, p1⟩)
          | .ok mc =>
            if mc.model_type ≠ "Checkpoint" then
              (.wrongType, ⟨s.dir, releaseSlot p1 «alias»⟩)
            else if !(["SD 1.5", "Other", "SD 1.4"].contains mc.baseModel) then
              (.unsupportedBaseModel, ⟨s.dir, releaseSlot p1 «alias»⟩)
            else
              match (mc.files.filter (fun f => f.primary)).head? with
              | none => (.indexError, ⟨s.dir, p1⟩)
              | some pf =>
                if pf.pickleScanResult ≠ "Success" then
                  (.failedPickleScan, ⟨s.dir, releaseSlot p1 «alias»⟩)
                else if pf.virusScanResult ≠ "Success" then
                  (.failedVirusScan, ⟨s.dir, releaseSlot p1 «alias»⟩)
                else
                  let model : Model := built_model «alias» model_hash mc pf
                  let d1 := download_model model env.dl s.dir
                  match env.dl with
                  | .failBeforeOpen => (.downloadError, ⟨d1, p1⟩)
                  | .failMidStream => (.downloadError, ⟨d1, p1⟩)
                  | .ok =>
                    match store_model model d1 with
                    | .error d2 => (.storageError, ⟨d2, p1⟩)
                    | .ok d2 =>
                      let p2 := releaseSlot p1 «alias»
                      if env.notify then (.committed model, ⟨d2, p2⟩)
                      else (.notifyError, ⟨d2, p2⟩)

/-!
### Helper lemmas

Facts about the filesystem model, the dict model, the admission table and
the scan fold, shared by the claim theorems below.
-/

theorem strData_append (s t : String) : (s ++ t).data = s.data ++ t.data := by
  cases s
  cases t
  rfl

theorem str_append_ne_append (s a b : String) (h : a.length ≠ b.length) :
    s ++ a ≠ s ++ b := by
  intro he
  have hl := congrArg String.length he
  rw [String.length_append, String.length_append] at hl
  omega

theorem str_ne_self_append (s t : String) (h : t.length ≠ 0) : s ≠ s ++ t := by
  intro he
  have hl := congrArg String.length he
  rw [String.length_append] at hl
  omega

theorem strEndsWith_append (s suf : String) : strEndsWith (s ++ suf) suf = true := by
  rw [strEndsWith, decide_eq_true_eq, strData_append]
  exact List.suffix_append _ _

theorem fsRemove_of_not_exists (d : Dir) (n : String) (h : fsExists d n = false) :
    fsRemove d n = d := by
  rw [fsExists, List.any_eq_false] at h
  rw [fsRemove]
  refine List.filter_eq_self.2 (fun e he => ?_)
  simpa using h e he

theorem fsWrite_fresh (d : Dir) (n : String) (c : FileContent)
    (h : fsExists d n = false) : fsWrite d n c = d ++ [(n, c)] := by
  rw [fsWrite, fsRemove_of_not_exists d n h]

theorem fsExists_append (d d' : Dir) (n : String) :
    fsExists (d ++ d') n = (fsExists d n || fsExists d' n) := by
  rw [fsExists, fsExists, fsExists, List.any_append]

theorem fsExists_fsRemove (d : Dir) (n m : String) (h : fsExists d m = false) :
    fsExists (fsRemove d n) m = false := by
  rw [fsExists, List.any_eq_false] at h ⊢
  intro e he
  exact h e (List.mem_filter.1 he).1

theorem find?_of_not_exists (d : Dir) (n : String) (h : fsExists d n = false) :
    d.find? (fun e => e.1 == n) = none := by
  rw [fsExists, List.any_eq_false] at h
  exact List.find?_eq_none.2 h

theorem find?_filter_of_imp {α : Type} (l : List α) (p q : α → Bool)
    (h : ∀ e, p e = true → q e = true) :
    (l.filter q).find? p = l.find? p := by
  induction l with
  | nil => rfl
  | cons e es ih =>
    by_cases hq : q e = true
    · rw [List.filter_cons_of_pos hq]
      by_cases hp : p e = true
      · rw [List.find?_cons_of_pos _ hp, List.find?_cons_of_pos _ hp]
      · rw [List.find?_cons_of_neg _ hp, List.find?_cons_of_neg _ hp, ih]
    · have hp : ¬ p e = true := fun hp => hq (h e hp)
      rw [List.filter_cons_of_neg hq, ih, List.find?_cons_of_neg _ hp]

theorem dictLookup_insert (db : Db) (k k' : String) (v : Model) :
    dictLookup (dictInsert db k v) k' =
      if k' = k then some v else dictLookup db k' := by
  rw [dictLookup, dictInsert, List.find?_append]
  by_cases hk : k' = k
  · subst hk
    have hnone : (db.filter (fun e => !(e.1 == k'))).find? (fun e => e.1 == k') = none := by
      refine List.find?_eq_none.2 (fun e he => ?_)
      have := (List.mem_filter.1 he).2
      simp only [Bool.not_eq_true', beq_eq_false_iff_ne] at this
      simpa using this
    simp [hnone, List.find?]
  · have hsingle : ([(k, v)].find? (fun e => e.1 == k')) = none := by
      have hkk : (k == k') = false := beq_eq_false_iff_ne.2 (Ne.symm hk)
      simp [List.find?, hkk]
    rw [hsingle, Option.or_none,
      find?_filter_of_imp db _ _ (fun e he => ?_), dictLookup, if_neg hk]
    simp only [beq_iff_eq] at he
    simp [he, hk]

theorem listIndex_get? {α : Type} [BEq α] [LawfulBEq α] (l : List α) (x : α) :
    ∀ i, listIndex l x = some i → l.get? i = some x := by
  induction l with
  | nil => intro i h; simp [listIndex] at h
  | cons y ys ih =>
    intro i h
    rw [listIndex] at h
    by_cases hy : (y == x) = true
    · rw [if_pos hy] at h
      cases h
      simp [List.get?, eq_of_beq hy]
    · rw [if_neg hy] at h
      cases hj : listIndex ys x with
      | none => rw [hj] at h; simp at h
      | some j =>
        rw [hj] at h
        simp only [Option.map_some'] at h
        cases h
        simpa [List.get?] using ih j hj

theorem set_get?_self {α : Type} (l : List α) (i : Nat) (x : α)
    (h : l.get? i = some x) : l.set i x = l := by
  induction l generalizing i with
  | nil => rfl
  | cons y ys ih =>
    cases i with
    | zero =>
      simp only [List.get?] at h
      cases h
      rfl
    | succ j =>
      simp only [List.get?] at h
      rw [List.set]
      rw [ih j h]

theorem listIndex_set_self {α : Type} [BEq α] [LawfulBEq α] (l : List α) (x : α) (i : Nat)
    (hc : l.contains x = false) (hi : i < l.length) :
    listIndex (l.set i x) x = some i := by
  induction l generalizing i with
  | nil => simp at hi
  | cons y ys ih =>
    rw [List.contains_cons, Bool.or_eq_false_iff] at hc
    cases i with
    | zero =>
      rw [List.set, listIndex, if_pos (by simp)]
    | succ j =>
      rw [List.set, listIndex]
      have hyx : ¬ ((y == x) = true) := by
        intro hb
        have : (x == y) = true := by rw [beq_iff_eq] at hb ⊢; exact hb.symm
        rw [hc.1] at this
        cases this
      rw [if_neg hyx, ih j hc.2 (by simpa using hi)]
      rfl

theorem releaseSlot_after_claim (p : List (Option String)) (a : String) (idx : Nat)
    (hc : p.contains (some a) = false) (hidx : listIndex p none = some idx) :
    releaseSlot (p.set idx (some a)) a = p := by
  have hget := listIndex_get? p none idx hidx
  have hlen : idx < p.length := by
    rcases List.get?_eq_some.1 hget with ⟨h, _⟩
    exact h
  rw [releaseSlot, listIndex_set_self p (some a) idx hc hlen]
  show (p.set idx (some a)).set idx none = p
  rw [List.set_set]
  exact set_get?_self p idx none hget

theorem load_fold_append (l₁ l₂ : Dir) (db : Db) :
    load_fold (l₁ ++ l₂) db =
      match load_fold l₁ db with
      | .error e => .error e
      | .ok db' => load_fold l₂ db' := by
  induction l₁ generalizing db with
  | nil => rfl
  | cons e es ih =>
    rw [List.cons_append, load_fold, load_fold]
    cases parse_model_card e.2 with
    | error u => rfl
    | ok m => exact ih _

/-- The descriptors carried by the well-formed sidecar files of a file list,
in scan order. -/
def cardsOf (fs : Dir) : List Model :=
  fs.filterMap (fun e => match e.2 with | .card m => some m | _ => none)

theorem parse_ok_eq_card (c : FileContent) (m : Model)
    (h : parse_model_card c = .ok m) : c = .card m := by
  cases c with
  | bytes => simp [parse_model_card] at h
  | card m' => simp only [parse_model_card, Except.ok.injEq] at h; rw [h]
  | malformedCard => simp [parse_model_card] at h

theorem load_fold_lookup (fs : Dir) (db db' : Db) (a : String)
    (h : load_fold fs db = .ok db') :
    dictLookup db' a =
      (cardsOf fs).foldl (fun acc m => if m.«alias» == a then some m else acc)
        (dictLookup db a) := by
  induction fs generalizing db with
  | nil => cases h; rfl
  | cons e es ih =>
    rw [load_fold] at h
    cases hp : parse_model_card e.2 with
    | error u => rw [hp] at h; cases h
    | ok m =>
      rw [hp] at h
      have hc := parse_ok_eq_card e.2 m hp
      have hcards : cardsOf (e :: es) = m :: cardsOf es := by
        simp [cardsOf, List.filterMap_cons, hc]
      rw [hcards, List.foldl_cons, ih _ h]
      congr 1
      rw [dictLookup_insert]
      by_cases hx : a = m.«alias»
      · rw [if_pos hx, if_pos (by rw [beq_iff_eq]; exact hx.symm)]
      · rw [if_neg hx, if_neg (by rw [beq_iff_eq]; exact fun he => hx he.symm)]

theorem foldl_lastMatch (l : List Model) (p : Model → Bool) (acc : Option Model) :
    l.foldl (fun acc m => if p m then some m else acc) acc =
      ((l.filter p).getLast?).or acc := by
  induction l using List.reverseRecOn with
  | nil => rfl
  | append_singleton es m ih =>
    rw [List.foldl_append, List.filter_append, ih]
    by_cases hp : p m = true
    · rw [List.filter_cons_of_pos hp]
      simp [hp, List.getLast?_concat]
    · rw [List.filter_cons_of_neg hp]
      simp [hp]

/-- What a successful registry scan binds an alias to: the descriptor of the
last sidecar file in scan order whose descriptor carries that alias. -/
theorem load_models_lookup (d : Dir) (db : Db) (a : String)
    (h : load_models d = .ok db) :
    dictLookup db a =
      ((cardsOf (model_card_files d)).filter (fun m => m.«alias» == a)).getLast? := by
  have := load_fold_lookup (model_card_files d) [] db a h
  rw [this, foldl_lastMatch]
  simp [dictLookup, List.find?]

/-!
### Concrete fixtures

Descriptors, catalog entries and directory states used by the concrete
theorems and witnesses below.
-/

def exModelA : Model :=
  ⟨"a", "Model A", "civitai", "hashA", 10, 20, 30, "a.safetensors", "urlA"⟩

def exModelA2 : Model :=
  ⟨"a", "Model A two", "civitai", "hashA2", 11, 21, 31, "a2.safetensors", "urlA2"⟩

/-- A catalog entry that passes every policy gate. -/
def exGoodCard : ModelCard :=
  ⟨"Checkpoint", "Model A", "SD 1.5", 10, 20,
    [⟨true, "Success", "Success", "a.safetensors", 30, 1000, "urlA"⟩]⟩

/-- A catalog entry of the wrong artifact type whose primary file would also
fail both scans: the first gate must win. -/
def exLoraCard : ModelCard :=
  ⟨"LORA", "Model A", "SD 1.5", 10, 20,
    [⟨true, "Danger", "Danger", "a.safetensors", 30, 1000, "urlA"⟩]⟩

/-- A catalog entry in which no candidate file is marked primary. -/
def exNoPrimaryCard : ModelCard :=
  ⟨"Checkpoint", "Model A", "SD 1.5", 10, 20,
    [⟨false, "Success", "Success", "a.safetensors", 30, 1000, "urlA"⟩]⟩

/-- A directory holding two well-formed sidecar files whose descriptors carry
the same alias. -/
def dirDup : Dir :=
  [("a1.safetensors.modelcard", .card exModelA),
   ("a2.safetensors.modelcard", .card exModelA2)]

/-!
### Claim theorems
-/


theorem commit_match_fst_ne (e : Except Dir Dir) (f g : Dir → St) (o : Outcome)
    (h2 : o ≠ Outcome.tooManyPending) :
    (match e with
     | Except.error d2 => (Outcome.storageError, f d2)
     | Except.ok d2 => (o, g d2)).1 ≠ Outcome.tooManyPending := by
  cases e
  · simp
  · simpa using h2

/-- C1.  The claim says every terminal outcome of an acquisition that claimed
an admission slot releases the slot.  The code violates it: a metadata-fetch
failure, a primary-file-selection IndexError and a mid-stream download
failure all terminate the request with the alias still occupying its slot
(only the policy-rejection and success paths release it).  Each conjunct
runs the pipeline on a one-slot table that the request claims and shows the
terminal state still holds `some "a"`. -/
theorem slot_leaked_on_failure_paths :
    download_civitai "a" "h" ⟨.netFail, .ok, true⟩ ⟨[], [none]⟩
      = (.fetchError, ⟨[], [some "a"]⟩)
    ∧ download_civitai "a" "h" ⟨.ok exNoPrimaryCard, .ok, true⟩ ⟨[], [none]⟩
      = (.indexError, ⟨[], [some "a"]⟩)
    ∧ download_civitai "a" "h" ⟨.ok exGoodCard, .failMidStream, true⟩ ⟨[], [none]⟩
      = (.downloadError, ⟨[("a.safetensors.pending", .bytes)], [some "a"]⟩) :=
  ⟨rfl, rfl, rfl⟩

/-- C2 counterexample.  The claim says a registry scan cannot observe an
artifact whose sidecar is written but whose data file has not been renamed
to its final name.  In this directory the sidecar exists and the data file
exists only under `.pending`, yet the scan returns the descriptor: the glob
matches every `*.modelcard` file without checking the data file. -/
theorem scan_observes_before_rename_counterexample :
    fsExists [("a.safetensors.modelcard", FileContent.card exModelA),
              ("a.safetensors.pending", FileContent.bytes)] "a.safetensors" = false
    ∧ load_models [("a.safetensors.modelcard", FileContent.card exModelA),
                   ("a.safetensors.pending", FileContent.bytes)]
        = .ok [("a", exModelA)]
    ∧ dictLookup [("a", exModelA)] "a" = some exModelA :=
  ⟨rfl, rfl, rfl⟩

/-- C2 amended.  Between the sidecar write and the rename the artifact IS
observable: any directory containing a parsable sidecar file for `m` — even
with no data file at the final name — yields a scan (when the scan succeeds)
whose mapping binds `m`'s alias. -/
theorem scan_observes_uncommitted_sidecar (d : Dir) (db : Db) (n : String) (m : Model)
    (hmem : (n, FileContent.card m) ∈ d)
    (hsuf : strEndsWith n ".modelcard" = true)
    (_hnodata : fsExists d m.filename = false)
    (h : load_models d = .ok db) :
    (dictLookup db m.«alias»).isSome = true := by
  rw [load_models_lookup d db m.«alias» h, List.getLast?_isSome]
  have hm : m ∈ cardsOf (model_card_files d) := by
    rw [cardsOf]
    refine List.mem_filterMap.2 ⟨(n, FileContent.card m), ?_, rfl⟩
    exact List.mem_filter.2 ⟨hmem, hsuf⟩
  exact List.ne_nil_of_mem
    (List.mem_filter.2 ⟨hm, by simp⟩)

/-- Witness for the amended C2 theorem at the counterexample directory. -/
theorem scan_observes_uncommitted_sidecar_witness :
    (dictLookup [("a", exModelA)] "a").isSome = true :=
  scan_observes_uncommitted_sidecar
    [("a.safetensors.modelcard", FileContent.card exModelA),
     ("a.safetensors.pending", FileContent.bytes)]
    [("a", exModelA)] "a.safetensors.modelcard" exModelA
    (by decide) (by decide) (by decide) rfl

/-- C3.  The claim says a malformed sidecar is skipped and the well-formed
ones are still returned, with no exception escaping.  The code violates it:
`load_models` has no try/except, so one unparsable sidecar aborts the whole
scan (first conjunct), although the same scan without the corrupt file
returns the committed descriptor (second conjunct). -/
theorem malformed_sidecar_aborts_scan :
    load_models [("a.safetensors.modelcard", .card exModelA),
                 ("b.safetensors.modelcard", .malformedCard)] = .error ()
    ∧ load_models [("a.safetensors.modelcard", .card exModelA)]
        = .ok [("a", exModelA)] :=
  ⟨rfl, rfl⟩

/-- C4.  The claim says a full admission table yields the distinct named
capacity error.  The code violates it: `pending.index(None)` raises
`ValueError` when no slot is free, so the request dies with an uncaught
generic exception and the dead `if idx == None` guard (the named
`Too many pending downloads` error) is never reached. -/
theorem capacity_exhausted_uncaught_value_error :
    download_civitai "a" "h" ⟨.netFail, .ok, true⟩ ⟨[], [some "x", some "y"]⟩
      = (.valueError, ⟨[], [some "x", some "y"]⟩)
    ∧ ∀ (a h : String) (env : Env) (s : St),
        (download_civitai a h env s).1 ≠ Outcome.tooManyPending := by
  refine ⟨rfl, fun a h env s => ?_⟩
  intro hco
  unfold download_civitai at hco
  repeat' split at hco
  all_goals try exact commit_match_fst_ne _ _ _ _ (by simp) hco
  all_goals simp at hco

/-- C5.  The claim says a catalog response with no primary file fails with a
named fatal `NoPrimaryFile` condition.  The code violates it: selection is
`[f for f in files if f.get("primary") == True][0]`, which raises an
uncaught `IndexError` on the empty list (and, additionally, leaks the
admission slot). -/
theorem no_primary_file_uncaught_index_error :
    download_civitai "a" "h" ⟨.ok exNoPrimaryCard, .ok, true⟩ ⟨[], [none]⟩
      = (.indexError, ⟨[], [some "a"]⟩) := rfl

/-- C9.  An alias already present in the registry short-circuits: the
request returns `present` with the existing descriptor and the state — both
the directory and the admission table — is returned unchanged; no slot is
claimed or released and no download happens. -/
theorem present_short_circuit («alias» model_hash : String) (env : Env) (s : St)
    (db : Db) (m : Model)
    (h1 : load_models s.dir = .ok db)
    (h2 : dictLookup db «alias» = some m) :
    download_civitai «alias» model_hash env s = (.present m, s) := by
  simp only [download_civitai, h1, h2]

/-- Witness for C9: a registry already holding alias `a`, an environment
whose fetch would fail and a table with a free slot; the request returns
`present` and the state is untouched. -/
theorem present_short_circuit_witness :
    download_civitai "a" "h" ⟨.netFail, .ok, true⟩
        ⟨[("a.safetensors.modelcard", FileContent.card exModelA)], [none]⟩
      = (.present exModelA,
          ⟨[("a.safetensors.modelcard", FileContent.card exModelA)], [none]⟩) :=
  present_short_circuit "a" "h" ⟨.netFail, .ok, true⟩
    ⟨[("a.safetensors.modelcard", FileContent.card exModelA)], [none]⟩
    [("a", exModelA)] exModelA rfl (by decide)

/-- C10.  A successful scan binds each alias to exactly one descriptor: the
one carried by the last sidecar file in scan order whose descriptor has that
alias; earlier same-alias sidecars are silently shadowed. -/
theorem registry_last_alias_wins (d : Dir) (db : Db) (a : String)
    (h : load_models d = .ok db) :
    dictLookup db a =
      ((cardsOf (model_card_files d)).filter (fun m => m.«alias» == a)).getLast? :=
  load_models_lookup d db a h

/-- Witness for C10: two sidecar files carry alias `a`; the scan returns the
descriptor of the later one only. -/
theorem registry_last_alias_wins_witness :
    load_models dirDup = .ok [("a", exModelA2)]
    ∧ dictLookup [("a", exModelA2)] "a" = some exModelA2 :=
  ⟨rfl, by rw [registry_last_alias_wins dirDup [("a", exModelA2)] "a" rfl]; decide⟩

/-- C6.  The policy gates run in source order — artifact type, base-model
allow-list, primary-file selection, pickle-scan, virus-scan — and each
rejects with its own distinct outcome, independently of every later gate's
field values.  In particular the first conjunct holds for arbitrary
`mc.files`: an entry of the wrong type is rejected `wrongType` even if its
scans would also fail.  (The primary-file-selection "gate" rejects with the
uncaught `indexError`, see C5.) -/
theorem policy_gate_order («alias» model_hash : String) (env : Env) (s : St)
    (db : Db) (idx : Nat) (mc : ModelCard)
    (h1 : load_models s.dir = .ok db)
    (h2 : dictLookup db «alias» = none)
    (h3 : s.pending.contains (some «alias») = false)
    (h4 : listIndex s.pending none = some idx)
    (h5 : env.fetch = .ok mc) :
    (mc.model_type ≠ "Checkpoint" →
      (download_civitai «alias» model_hash env s).1 = .wrongType)
    ∧ (mc.model_type = "Checkpoint" →
        ["SD 1.5", "Other", "SD 1.4"].contains mc.baseModel = false →
        (download_civitai «alias» model_hash env s).1 = .unsupportedBaseModel)
    ∧ (mc.model_type = "Checkpoint" →
        ["SD 1.5", "Other", "SD 1.4"].contains mc.baseModel = true →
        (mc.files.filter (fun f => f.primary)).head? = none →
        (download_civitai «alias» model_hash env s).1 = .indexError)
    ∧ (∀ pf, mc.model_type = "Checkpoint" →
        ["SD 1.5", "Other", "SD 1.4"].contains mc.baseModel = true →
        (mc.files.filter (fun f => f.primary)).head? = some pf →
        pf.pickleScanResult ≠ "Success" →
        (download_civitai «alias» model_hash env s).1 = .failedPickleScan)
    ∧ (∀ pf, mc.model_type = "Checkpoint" →
        ["SD 1.5", "Other", "SD 1.4"].contains mc.baseModel = true →
        (mc.files.filter (fun f => f.primary)).head? = some pf →
        pf.pickleScanResult = "Success" →
        pf.virusScanResult ≠ "Success" →
        (download_civitai «alias» model_hash env s).1 = .failedVirusScan) := by
  refine ⟨?_, ?_, ?_, ?_, ?_⟩
  · intro ht
    simp only [download_civitai, h1, h2, h3, h4, h5]
    simp [ht]
  · intro ht hb
    have hb' : ¬(mc.baseModel = "SD 1.5" ∨ mc.baseModel = "Other" ∨ mc.baseModel = "SD 1.4") := by
      simpa using hb
    push_neg at hb'
    simp only [download_civitai, h1, h2, h3, h4, h5]
    simp [ht, hb'.1, hb'.2.1, hb'.2.2]
  · intro ht hb hpf
    have hb' : mc.baseModel = "SD 1.5" ∨ mc.baseModel = "Other" ∨ mc.baseModel = "SD 1.4" := by
      simpa using hb
    have hpf' : mc.files.find? (fun f => f.primary) = none := by
      rw [← List.filter_head?]
      exact hpf
    simp only [download_civitai, h1, h2, h3, h4, h5]
    rcases hb' with h | h | h <;> simp [ht, hpf', h]
  · intro pf ht hb hpf hps
    have hb' : mc.baseModel = "SD 1.5" ∨ mc.baseModel = "Other" ∨ mc.baseModel = "SD 1.4" := by
      simpa using hb
    have hpf' : mc.files.find? (fun f => f.primary) = some pf := by
      rw [← List.filter_head?]
      exact hpf
    simp only [download_civitai, h1, h2, h3, h4, h5]
    rcases hb' with h | h | h <;> simp [ht, hpf', h, hps]
  · intro pf ht hb hpf hps hvs
    have hb' : mc.baseModel = "SD 1.5" ∨ mc.baseModel = "Other" ∨ mc.baseModel = "SD 1.4" := by
      simpa using hb
    have hpf' : mc.files.find? (fun f => f.primary) = some pf := by
      rw [← List.filter_head?]
      exact hpf
    simp only [download_civitai, h1, h2, h3, h4, h5]
    rcases hb' with h | h | h <;> simp [ht, hpf', h, hps, hvs]

/-- Witness for C6: a catalog entry of type `LORA` whose only file would
also fail both scans is rejected `wrongType` — the first gate wins. -/
theorem policy_gate_order_witness :
    (download_civitai "a" "h" ⟨.ok exLoraCard, .ok, true⟩ ⟨[], [none]⟩).1
      = .wrongType :=
  (policy_gate_order "a" "h" ⟨.ok exLoraCard, .ok, true⟩ ⟨[], [none]⟩
    [] 0 exLoraCard rfl rfl rfl rfl rfl).1 (by decide)

theorem fsExists_fsWrite (d : Dir) (n m : String) (c : FileContent) :
    fsExists (fsWrite d n c) m = (fsExists (fsRemove d n) m || (n == m)) := by
  rw [fsWrite, fsExists_append]
  simp [fsExists]

/-- C7.  When the streamed download fails mid-stream on an acquisition that
passed every policy gate, the request terminates with the uncaught download
exception and the only change on disk is the `.pending` temporary file: no
file exists at the final artifact name and no sidecar metadata file exists,
because `store_model` is never reached. -/
theorem midstream_failure_no_commit («alias» model_hash : String) (env : Env) (s : St)
    (db : Db) (idx : Nat) (mc : ModelCard) (pf : CatalogFile)
    (h1 : load_models s.dir = .ok db)
    (h2 : dictLookup db «alias» = none)
    (h3 : s.pending.contains (some «alias») = false)
    (h4 : listIndex s.pending none = some idx)
    (h5 : env.fetch = .ok mc)
    (ht : mc.model_type = "Checkpoint")
    (hb : ["SD 1.5", "Other", "SD 1.4"].contains mc.baseModel = true)
    (hpf : (mc.files.filter (fun f => f.primary)).head? = some pf)
    (hps : pf.pickleScanResult = "Success")
    (hvs : pf.virusScanResult = "Success")
    (hdl : env.dl = .failMidStream)
    (hfn : fsExists s.dir pf.name = false)
    (hmcn : fsExists s.dir (pf.name ++ ".modelcard") = false) :
    download_civitai «alias» model_hash env s
      = (.downloadError,
          ⟨fsWrite s.dir (pf.name ++ ".pending") .bytes, s.pending.set idx (some «alias»)⟩)
    ∧ fsExists (fsWrite s.dir (pf.name ++ ".pending") FileContent.bytes) pf.name = false
    ∧ fsExists (fsWrite s.dir (pf.name ++ ".pending") FileContent.bytes)
        (pf.name ++ ".modelcard") = false := by
  have hb' : mc.baseModel = "SD 1.5" ∨ mc.baseModel = "Other" ∨ mc.baseModel = "SD 1.4" := by
    simpa using hb
  have hpf' : mc.files.find? (fun f => f.primary) = some pf := by
    rw [← List.filter_head?]
    exact hpf
  refine ⟨?_, ?_, ?_⟩
  · simp only [download_civitai, h1, h2, h3, h4, h5]
    rcases hb' with h | h | h <;>
      simp [ht, hpf', h, hps, hvs, hdl, download_model, built_model]
  · rw [fsExists_fsWrite, fsExists_fsRemove _ _ _ hfn]
    have : pf.name ++ ".pending" ≠ pf.name :=
      Ne.symm (str_ne_self_append pf.name ".pending" (by decide))
    simp [beq_eq_false_iff_ne.2 this]
  · rw [fsExists_fsWrite, fsExists_fsRemove _ _ _ hmcn]
    have : pf.name ++ ".pending" ≠ pf.name ++ ".modelcard" :=
      str_append_ne_append pf.name ".pending" ".modelcard" (by decide)
    simp [beq_eq_false_iff_ne.2 this]

/-- Witness for C7: a fully valid catalog entry whose download dies
mid-stream against an empty registry leaves only `a.safetensors.pending`. -/
theorem midstream_failure_no_commit_witness :
    download_civitai "a" "h" ⟨.ok exGoodCard, .failMidStream, true⟩ ⟨[], [none]⟩
      = (.downloadError, ⟨[("a.safetensors.pending", .bytes)], [some "a"]⟩)
    ∧ fsExists [("a.safetensors.pending", FileContent.bytes)] "a.safetensors" = false
    ∧ fsExists [("a.safetensors.pending", FileContent.bytes)] "a.safetensors.modelcard"
        = false :=
  midstream_failure_no_commit "a" "h" ⟨.ok exGoodCard, .failMidStream, true⟩ ⟨[], [none]⟩
    [] 0 exGoodCard ⟨true, "Success", "Success", "a.safetensors", 30, 1000, "urlA"⟩
    rfl rfl rfl rfl rfl rfl (by decide) rfl rfl rfl rfl rfl rfl

/-- The commit on fresh names: writing a descriptor's sidecar next to its
freshly downloaded `.pending` data file and renaming the data file to its
final name appends exactly the sidecar and the final-named data file. -/
theorem store_model_fresh (m : Model) (d : Dir)
    (hfn : fsExists d m.filename = false)
    (hpend : fsExists d (m.filename ++ ".pending") = false)
    (hmcn : fsExists d (m.filename ++ ".modelcard") = false) :
    store_model m (fsWrite d (m.filename ++ ".pending") FileContent.bytes)
      = .ok (d ++ [(m.filename ++ ".modelcard", .card m), (m.filename, .bytes)]) := by
  have hpm : (m.filename ++ ".pending" == m.filename ++ ".modelcard") = false :=
    beq_eq_false_iff_ne.2 (str_append_ne_append _ ".pending" ".modelcard" (by decide))
  have hmp : (m.filename ++ ".modelcard" == m.filename ++ ".pending") = false :=
    beq_eq_false_iff_ne.2 (str_append_ne_append _ ".modelcard" ".pending" (by decide))
  have hmf : (m.filename ++ ".modelcard" == m.filename) = false :=
    beq_eq_false_iff_ne.2 (Ne.symm (str_ne_self_append _ ".modelcard" (by decide)))
  rw [fsWrite_fresh _ _ _ hpend, store_model]
  have hex2 : fsExists (d ++ [(m.filename ++ ".pending", FileContent.bytes)])
      (m.filename ++ ".modelcard") = false := by
    rw [fsExists_append, hmcn]
    simp [fsExists, hpm]
  rw [fsWrite_fresh _ _ _ hex2]
  have hlook : fsLookup
      ((d ++ [(m.filename ++ ".pending", FileContent.bytes)])
        ++ [(m.filename ++ ".modelcard", FileContent.card m)])
      (m.filename ++ ".pending") = some FileContent.bytes := by
    rw [fsLookup, List.find?_append, List.find?_append, find?_of_not_exists d _ hpend]
    simp [List.find?]
  rw [fsRename, hlook]
  have hrem : fsRemove
      ((d ++ [(m.filename ++ ".pending", FileContent.bytes)])
        ++ [(m.filename ++ ".modelcard", FileContent.card m)])
      (m.filename ++ ".pending") = d ++ [(m.filename ++ ".modelcard", FileContent.card m)] := by
    rw [fsRemove, List.filter_append, List.filter_append]
    have hd : List.filter (fun e => !(e.1 == m.filename ++ ".pending")) d = d :=
      fsRemove_of_not_exists d _ hpend
    rw [hd]
    simp [List.filter, hmp]
  rw [hrem]
  have hex3 : fsExists (d ++ [(m.filename ++ ".modelcard", FileContent.card m)])
      m.filename = false := by
    rw [fsExists_append, hfn]
    simp [fsExists, hmf]
  show Except.ok (fsWrite (d ++ [(m.filename ++ ".modelcard", FileContent.card m)])
      m.filename FileContent.bytes)
    = Except.ok (d ++ [(m.filename ++ ".modelcard", FileContent.card m),
        (m.filename, FileContent.bytes)])
  rw [fsWrite_fresh _ _ _ hex3, List.append_assoc]
  rfl

/-- C8.  A fully successful acquisition returns `committed` with the built
descriptor, leaves the directory extended by exactly the sidecar and the
final-named data file, a fresh scan of that directory parses the sidecar
back to the identical descriptor (`get(alias)` returns it), and the
admission table — restored to its pre-claim contents — no longer contains
the alias. -/
theorem committed_roundtrip («alias» model_hash : String) (env : Env) (s : St)
    (db : Db) (idx : Nat) (mc : ModelCard) (pf : CatalogFile)
    (h1 : load_models s.dir = .ok db)
    (h2 : dictLookup db «alias» = none)
    (h3 : s.pending.contains (some «alias») = false)
    (h4 : listIndex s.pending none = some idx)
    (h5 : env.fetch = .ok mc)
    (ht : mc.model_type = "Checkpoint")
    (hb : ["SD 1.5", "Other", "SD 1.4"].contains mc.baseModel = true)
    (hpf : (mc.files.filter (fun f => f.primary)).head? = some pf)
    (hps : pf.pickleScanResult = "Success")
    (hvs : pf.virusScanResult = "Success")
    (hdl : env.dl = .ok)
    (hnote : env.notify = true)
    (hfn : fsExists s.dir pf.name = false)
    (hpend : fsExists s.dir (pf.name ++ ".pending") = false)
    (hmcn : fsExists s.dir (pf.name ++ ".modelcard") = false)
    (hnotmc : strEndsWith pf.name ".modelcard" = false) :
    download_civitai «alias» model_hash env s
      = (.committed (built_model «alias» model_hash mc pf),
          ⟨s.dir ++ [(pf.name ++ ".modelcard", .card (built_model «alias» model_hash mc pf)),
                     (pf.name, .bytes)],
           s.pending⟩)
    ∧ load_models (s.dir ++ [(pf.name ++ ".modelcard", .card (built_model «alias» model_hash mc pf)),
                             (pf.name, .bytes)])
        = .ok (dictInsert db «alias» (built_model «alias» model_hash mc pf))
    ∧ dictLookup (dictInsert db «alias» (built_model «alias» model_hash mc pf)) «alias»
        = some (built_model «alias» model_hash mc pf)
    ∧ s.pending.contains (some «alias») = false := by
  have hb' : mc.baseModel = "SD 1.5" ∨ mc.baseModel = "Other" ∨ mc.baseModel = "SD 1.4" := by
    simpa using hb
  have hpf' : mc.files.find? (fun f => f.primary) = some pf := by
    rw [← List.filter_head?]
    exact hpf
  have hstore := store_model_fresh (built_model «alias» model_hash mc pf) s.dir hfn hpend hmcn
  simp only [built_model] at hstore
  have hrel := releaseSlot_after_claim s.pending «alias» idx h3 h4
  refine ⟨?_, ?_, ?_, h3⟩
  · simp only [download_civitai, h1, h2, h3, h4, h5]
    rcases hb' with h | h | h <;>
      simp [ht, hpf', h, hps, hvs, hdl, hnote, download_model, built_model, hstore, hrel]
  · have hmcf : model_card_files
        (s.dir ++ [(pf.name ++ ".modelcard", .card (built_model «alias» model_hash mc pf)),
                   (pf.name, .bytes)])
        = model_card_files s.dir
          ++ [(pf.name ++ ".modelcard", .card (built_model «alias» model_hash mc pf))] := by
      rw [model_card_files, model_card_files, List.filter_append]
      congr 1
      simp [List.filter, strEndsWith_append, hnotmc]
    rw [load_models, hmcf, load_fold_append,
      show load_fold (model_card_files s.dir) [] = Except.ok db from h1]
    simp [load_fold, parse_model_card, built_model]
  · rw [dictLookup_insert]
    simp

/-- Witness for C8: a fully valid catalog entry acquired against an empty
registry and a one-slot table commits, is returned by a fresh scan, and
frees its slot. -/
theorem committed_roundtrip_witness :
    download_civitai "a" "h" ⟨.ok exGoodCard, .ok, true⟩ ⟨[], [none]⟩
      = (.committed (built_model "a" "h" exGoodCard
            ⟨true, "Success", "Success", "a.safetensors", 30, 1000, "urlA"⟩),
          ⟨[("a.safetensors.modelcard", .card (built_model "a" "h" exGoodCard
              ⟨true, "Success", "Success", "a.safetensors", 30, 1000, "urlA"⟩)),
            ("a.safetensors", .bytes)],
           [none]⟩)
    ∧ load_models [("a.safetensors.modelcard", .card (built_model "a" "h" exGoodCard
          ⟨true, "Success", "Success", "a.safetensors", 30, 1000, "urlA"⟩)),
        ("a.safetensors", .bytes)]
        = .ok (dictInsert [] "a" (built_model "a" "h" exGoodCard
            ⟨true, "Success", "Success", "a.safetensors", 30, 1000, "urlA"⟩))
    ∧ dictLookup (dictInsert [] "a" (built_model "a" "h" exGoodCard
          ⟨true, "Success", "Success", "a.safetensors", 30, 1000, "urlA"⟩)) "a"
        = some (built_model "a" "h" exGoodCard
            ⟨true, "Success", "Success", "a.safetensors", 30, 1000, "urlA"⟩)
    ∧ ([none] : List (Option String)).contains (some "a") = false :=
  committed_roundtrip "a" "h" ⟨.ok exGoodCard, .ok, true⟩ ⟨[], [none]⟩
    [] 0 exGoodCard ⟨true, "Success", "Success", "a.safetensors", 30, 1000, "urlA"⟩
    rfl rfl rfl rfl rfl rfl (by decide) rfl rfl rfl rfl rfl rfl rfl rfl (by decide)
